import Mathlib

set_option maxRecDepth 10000

/-!
Shallow embedding of the scoring engine of `src/fraud_analyzer.py`
(class `FraudAnalyzer`) from the telegram-security-bot repository.

Scores are modelled as rationals (the Python source uses floats whose
literals are all decimal multiples of 0.1; no claim below depends on
binary floating-point rounding).  Message text is modelled as `String`
and processed as `List Char`.  The regular expressions of the rule
table use only literals, character classes, `\s` `\d` `\w` `.`,
star/plus/optional over single-character classes, `{4}` repetition,
alternation and the word boundary `\b`; the matcher below implements
exactly this fragment with Python `re.search` / `re.match` existence
semantics.  The external HTTP classifier is modelled by an explicit
oracle (`HttpResult`) describing the outcome of the one `requests.post`
call.
-/

namespace FraudBot

/-- Character classes occurring in the source regexes: an explicit
`[...]` class, `\d`, `\w`, `\s` and `.` (any char except newline). -/
inductive CharClass where
  | chars (cs : List Char)
  | digit
  | word
  | space
  | dot
deriving DecidableEq, Repr

/-- Python `\s` over the characters that can occur here (ASCII whitespace). -/
def pySpace (c : Char) : Bool :=
  c = ' ' || c = '\t' || c = '\n' || c = '\r' || c = '\x0b' || c = '\x0c'

/-- Python `\d` (ASCII digits; the source texts contain no other digits). -/
def pyDigit (c : Char) : Bool := '0' ≤ c && c ≤ '9'

/-- Python `\w` for the alphabet in play: ASCII alphanumerics, underscore,
and the Cyrillic block U+0400–U+04FF. -/
def isWordChar (c : Char) : Bool :=
  ('a' ≤ c && c ≤ 'z') || ('A' ≤ c && c ≤ 'Z') || ('0' ≤ c && c ≤ '9') ||
  c = '_' || (0x400 ≤ c.toNat && c.toNat ≤ 0x4FF)

def ccMatch : CharClass → Char → Bool
  | .chars cs, c => cs.contains c
  | .digit, c => pyDigit c
  | .word, c => isWordChar c
  | .space, c => pySpace c
  | .dot, c => c != '\n'

/-- Abstract syntax of the regex fragment used by the source. -/
inductive Rx where
  | eps
  | ch (c : Char)
  | cset (k : CharClass)
  | many (k : CharClass)
  | seq (a b : Rx)
  | alt (a b : Rx)
  | opt (a : Rx)
  | bnd
deriving DecidableEq, Repr

/-- Word-boundary test `\b`: the character to the left (if any) and the
character to the right (if any) disagree on word-char status. -/
def isBoundary (p : Option Char) (s : List Char) : Bool :=
  (match p with | none => false | some c => isWordChar c) !=
  (match s with | [] => false | c :: _ => isWordChar c)

/-- All ways `k*` can consume a prefix of the input; each result records
the last consumed character (for `\b`) and the remaining input. -/
def manyRun (k : CharClass) : Option Char → List Char → List (Option Char × List Char)
  | p, [] => [(p, [])]
  | p, x :: xs => (p, x :: xs) :: (if ccMatch k x then manyRun k (some x) xs else [])

/-- All ways a regex can match a prefix of the input, given the character
immediately before the current position (`none` at string start). -/
def rxRun : Rx → Option Char → List Char → List (Option Char × List Char)
  | .eps, p, s => [(p, s)]
  | .ch _, _, [] => []
  | .ch c, _, x :: xs => if x = c then [(some x, xs)] else []
  | .cset _, _, [] => []
  | .cset k, _, x :: xs => if ccMatch k x then [(some x, xs)] else []
  | .many k, p, s => manyRun k p s
  | .seq a b, p, s => (rxRun a p s).flatMap (fun pr => rxRun b pr.1 pr.2)
  | .alt a b, p, s => rxRun a p s ++ rxRun b p s
  | .opt a, p, s => (p, s) :: rxRun a p s
  | .bnd, p, s => if isBoundary p s then [(p, s)] else []

/-- Does the regex match starting at some position of the input, threading
the character before each candidate start?  This is `re.search` truthiness. -/
def rxSearchAux (r : Rx) : Option Char → List Char → Bool
  | p, [] => !(rxRun r p []).isEmpty
  | p, x :: xs => !(rxRun r p (x :: xs)).isEmpty || rxSearchAux r (some x) xs

/-- `re.search(r, text)` truthiness. -/
def rxSearch (r : Rx) (text : List Char) : Bool := rxSearchAux r none text

/-- `re.match(r, text)` truthiness (anchored at the start only). -/
def rxMatch (r : Rx) (text : List Char) : Bool := !(rxRun r none text).isEmpty

/-- A sequence of literal characters. -/
def litRx (cs : List Char) : Rx := cs.foldr (fun c r => Rx.seq (.ch c) r) .eps

/-- A literal string regex. -/
def strLit (s : String) : Rx := litRx s.data

/-- Right-nested sequence of regexes. -/
def seqList (rs : List Rx) : Rx := rs.foldr Rx.seq .eps

/-- `k+` as `k k*`. -/
def plus1 (k : CharClass) : Rx := .seq (.cset k) (.many k)

/-- `\s+`. -/
def spPlus : Rx := plus1 .space

/-- `\s*`. -/
def spStar : Rx := Rx.many .space

/-- `\d{4}`. -/
def d4 : Rx := seqList [.cset .digit, .cset .digit, .cset .digit, .cset .digit]

/-- Python `str.lower` restricted to the alphabet in play: ASCII letters
and the Cyrillic letters А–Я (U+0410–U+042F) and Ё (U+0401). -/
def ruLower (c : Char) : Char :=
  if 'A' ≤ c ∧ c ≤ 'Z' then Char.ofNat (c.toNat + 32)
  else if 0x410 ≤ c.toNat ∧ c.toNat ≤ 0x42F then Char.ofNat (c.toNat + 0x20)
  else if c.toNat = 0x401 then Char.ofNat 0x451
  else c

/-- `message.lower()` on the character list. -/
def lowerL (cs : List Char) : List Char := cs.map ruLower

/-- Python `needle in hay` for strings (substring containment). -/
def inText (needle : List Char) : List Char → Bool
  | [] => needle.isEmpty
  | x :: xs => needle.isPrefixOf (x :: xs) || inText needle xs

/-- Python `min` on two numbers (returns the first argument on a tie). -/
def pyMin (a b : ℚ) : ℚ := if a ≤ b then a else b

/-- Python `str.strip()` (trim whitespace at both ends). -/
def pyStrip (cs : List Char) : List Char :=
  ((cs.dropWhile pySpace).reverse.dropWhile pySpace).reverse

/-- One entry of `self.fraud_patterns`. -/
structure FraudPattern where
  pattern : Rx
  weight : ℚ
  type : String
deriving DecidableEq, Repr

/-- Source line 22: `перевед[иьте]\s+деньги`. -/
def rxPerevedDengi : Rx :=
  seqList [strLit "перевед", .cset (.chars ['и', 'ь', 'т', 'е']), spPlus, strLit "деньги"]

/-- Source line 23: `оплат[иьте]\s+(штраф|счет|долг)`. -/
def rxOplati : Rx :=
  seqList [strLit "оплат", .cset (.chars ['и', 'ь', 'т', 'е']), spPlus,
    .alt (strLit "штраф") (.alt (strLit "счет") (strLit "долг"))]

/-- Source line 24: `на\s+карт[уе]\s*\d{4}\s*\d{4}\s*\d{4}\s*\d{4}`. -/
def rxNaKartu : Rx :=
  seqList [strLit "на", spPlus, strLit "карт", .cset (.chars ['у', 'е']),
    spStar, d4, spStar, d4, spStar, d4, spStar, d4]

/-- Source line 27: `служб[аы]\s+безопасности`. -/
def rxSluzhba : Rx :=
  seqList [strLit "служб", .cset (.chars ['а', 'ы']), spPlus, strLit "безопасности"]

/-- Source line 28: `техническ[ая|ой]\s+поддержк` (the class literally
contains the bar character). -/
def rxTehpod : Rx :=
  seqList [strLit "техническ", .cset (.chars ['а', 'я', '|', 'о', 'й']), spPlus, strLit "поддержк"]

/-- Source line 29: `юридическ[ая|ой]\s+компани`. -/
def rxJurid : Rx :=
  seqList [strLit "юридическ", .cset (.chars ['а', 'я', '|', 'о', 'й']), spPlus, strLit "компани"]

/-- Source line 30: `представитель\s+\w+`. -/
def rxPredstavitel : Rx := seqList [strLit "представитель", spPlus, plus1 .word]

/-- Source line 31: `сбой\s+в\s+системе`. -/
def rxSboj : Rx := seqList [strLit "сбой", spPlus, strLit "в", spPlus, strLit "системе"]

/-- Source line 32: `обновлени[ея]\s+безопасности`. -/
def rxObnovlenie : Rx :=
  seqList [strLit "обновлени", .cset (.chars ['е', 'я']), spPlus, strLit "безопасности"]

/-- Source line 35: `во\s+избежание\s+последствий`. -/
def rxVoIzbezhanie : Rx :=
  seqList [strLit "во", spPlus, strLit "избежание", spPlus, strLit "последствий"]

/-- Source line 36: `правов[ы]?\s+последствий`. -/
def rxPravov : Rx :=
  seqList [strLit "правов", .opt (.cset (.chars ['ы'])), spPlus, strLit "последствий"]

/-- Source line 37: `рекомендуем\s+связаться`. -/
def rxRekomenduem : Rx := seqList [strLit "рекомендуем", spPlus, strLit "связаться"]

/-- Source line 38: `требуется\s+ваша\s+реакция`. -/
def rxTrebuetsya : Rx :=
  seqList [strLit "требуется", spPlus, strLit "ваша", spPlus, strLit "реакция"]

/-- Source line 39: `в\s+течение\s+\d+\s+час`. -/
def rxVTechenie : Rx :=
  seqList [strLit "в", spPlus, strLit "течение", spPlus, plus1 .digit, spPlus, strLit "час"]

/-- Source line 42: `подтверждени[ея]\s+данн`. -/
def rxPodtverzhdenie : Rx :=
  seqList [strLit "подтверждени", .cset (.chars ['е', 'я']), spPlus, strLit "данн"]

/-- Source line 43: `верификаци[яи]\s+профил`. -/
def rxVerifikaciya : Rx :=
  seqList [strLit "верификаци", .cset (.chars ['я', 'и']), spPlus, strLit "профил"]

/-- Source line 44: `ответьте\s+цифрой`. -/
def rxOtvette : Rx := seqList [strLit "ответьте", spPlus, strLit "цифрой"]

/-- Source line 45: `оставьте\s+комментарий`. -/
def rxOstavte : Rx := seqList [strLit "оставьте", spPlus, strLit "комментарий"]

/-- Source line 48: `супер\s+выгодную\s+акцию`. -/
def rxSuper : Rx :=
  seqList [strLit "супер", spPlus, strLit "выгодную", spPlus, strLit "акцию"]

/-- Source line 49: `уникальная\s+возможность`. -/
def rxUnikalnaya : Rx := seqList [strLit "уникальная", spPlus, strLit "возможность"]

/-- Source line 50: `частный\s+инвестор`. -/
def rxChastnyj : Rx := seqList [strLit "частный", spPlus, strLit "инвестор"]

/-- Source line 51: `надежных\s+партнеров`. -/
def rxNadezhnyh : Rx := seqList [strLit "надежных", spPlus, strLit "партнеров"]

/-- `self.fraud_patterns` (source lines 20–52). -/
def fraud_patterns : List FraudPattern :=
  [ ⟨rxPerevedDengi, 9/10, "financial"⟩,
    ⟨rxOplati, 8/10, "financial"⟩,
    ⟨rxNaKartu, 1, "financial"⟩,
    ⟨rxSluzhba, 7/10, "authority"⟩,
    ⟨rxTehpod, 6/10, "authority"⟩,
    ⟨rxJurid, 7/10, "authority"⟩,
    ⟨rxPredstavitel, 5/10, "authority"⟩,
    ⟨rxSboj, 6/10, "technical"⟩,
    ⟨rxObnovlenie, 6/10, "technical"⟩,
    ⟨rxVoIzbezhanie, 8/10, "pressure"⟩,
    ⟨rxPravov, 7/10, "pressure"⟩,
    ⟨rxRekomenduem, 5/10, "pressure"⟩,
    ⟨rxTrebuetsya, 6/10, "urgency"⟩,
    ⟨rxVTechenie, 7/10, "urgency"⟩,
    ⟨rxPodtverzhdenie, 6/10, "personal_data"⟩,
    ⟨rxVerifikaciya, 6/10, "personal_data"⟩,
    ⟨rxOtvette, 5/10, "confirmation"⟩,
    ⟨rxOstavte, 4/10, "confirmation"⟩,
    ⟨rxSuper, 7/10, "reward"⟩,
    ⟨rxUnikalnaya, 6/10, "reward"⟩,
    ⟨rxChastnyj, 5/10, "investment"⟩,
    ⟨rxNadezhnyh, 5/10, "investment"⟩ ]

/-- `self.red_flags` (source lines 55–61). -/
def red_flags : List String :=
  [ "срочно", "немедленно", "переведите", "оплатите", "заблокирован",
    "выиграл", "приз", "штраф", "долг", "банк", "карт", "паспорт",
    "разблокировки", "счет", "деньги", "перевод", "безопасност",
    "подтверждени", "верификац", "реквизит", "данн", "проверк",
    "акци", "выгодн", "возможност", "инвест", "партнер" ]

/-- `self.context_triggers` (source lines 64–70), in insertion order. -/
def context_triggers : List (String × List String) :=
  [ ("authority_impersonation",
      ["служба безопасности", "техническая поддержка", "юридическая", "представитель"]),
    ("urgency_pressure",
      ["срочно", "немедленно", "в течение", "скорее", "последний шанс"]),
    ("confirmation_tricks",
      ["ответьте", "подтвердите", "ведите код", "оставьте комментарий"]),
    ("financial_enticement",
      ["выгодно", "акция", "бонус", "приз", "доходность"]),
    ("technical_pretext",
      ["сбой", "обновление", "проверка", "верификация"]) ]

/-- Bonus regex of source line 126: `\b\d{4}\s*\d{4}\s*\d{4}\s*\d{4}\b`. -/
def rxCardBonus : Rx := seqList [.bnd, d4, spStar, d4, spStar, d4, spStar, d4, .bnd]

/-- Bonus regex of source line 129: `\d+\s*(рубл|руб|₽|рублей|р\.|₽)`. -/
def rxRubles : Rx :=
  seqList [plus1 .digit, spStar,
    .alt (strLit "рубл") (.alt (strLit "руб") (.alt (strLit "₽")
      (.alt (strLit "рублей") (.alt (strLit "р.") (strLit "₽")))))]

/-- The `.*!` tail of the greeting regex of source line 150. -/
def greetTail : Rx := .seq (.many .dot) (.ch '!')

/-- Greeting regex of source line 150:
`(Здравствуйте|Уважаем|Добрый день).*!` (used with `re.match`). -/
def greetingRx : Rx :=
  .seq (.alt (strLit "Здравствуйте") (.alt (strLit "Уважаем") (strLit "Добрый день")))
    greetTail

/-- The dictionary returned by `_create_response` / `analyze_message`. -/
structure AnalysisResult where
  is_fraud : Bool
  confidence : ℚ
  risk_level : String
  reason : String
  ai_used : Bool
deriving DecidableEq, Repr

/-- The dictionary built by `_parse_ai_response` (it has no `risk_level` key). -/
structure AiResult where
  is_fraud : Bool
  confidence : ℚ
  reason : String
  ai_used : Bool
deriving DecidableEq, Repr

/-- Minimal JSON values as far as `_parse_ai_response` inspects them:
a string, an array, an object, or anything else. -/
inductive JsonV where
  | str (s : String)
  | arr (xs : List JsonV)
  | obj (fields : List (String × JsonV))
  | other

/-- Outcome of the single `requests.post` call in `_analyze_with_ai`:
either the call raised, or it returned a status code together with the
parsed JSON body (`none` when `response.json()` raises). -/
inductive HttpResult where
  | exn
  | resp (status : Nat) (body : Option JsonV)

/-- Environment of one `analyze_message` call: truthiness of
`self.api_key` and the outcome of the HTTP call were it performed. -/
structure Config where
  api_key : Bool
  http : HttpResult

/-- `_get_risk_level` (source lines 323–331). -/
def get_risk_level (score : ℚ) : String :=
  if score > 7/10 then "высокий"
  else if score > 1/2 then "средний"
  else if score > 3/10 then "низкий"
  else "минимальный"

/-- `_create_response` (source lines 303–321). -/
def create_response (is_fraud : Bool) (confidence : ℚ) (reason : String)
    (ai_used : Bool) (risk_level : Option String) : AnalysisResult :=
  { is_fraud := is_fraud
    confidence := confidence
    risk_level := match risk_level with
      | none => get_risk_level confidence
      | some r => r
    reason := reason
    ai_used := ai_used }

/-- Loop of source lines 100–103: accumulate pattern weights and the
detected pattern types, in table order. -/
def patternLoop (text : List Char) : List FraudPattern → ℚ × List String
  | [] => (0, [])
  | pi :: rest =>
    let r := patternLoop text rest
    if rxSearch pi.pattern text then (pi.weight + r.1, pi.type :: r.2) else r

/-- Loop of source lines 106–111: for each trigger group, on the first
member substring found in the text (inner loop with `break`), add 0.3 and
record the group name once. -/
def triggerLoop (text : List Char) : List (String × List String) → ℚ × List String
  | [] => (0, [])
  | g :: rest =>
    let r := triggerLoop text rest
    if (g.2.find? (fun t => inText t.data text)).isSome
    then (3/10 + r.1, g.1 :: r.2) else r

/-- `_analyze_message_structure` (source lines 143–162).  The greeting
check runs `re.match` on the raw message; the other two checks use
`message.lower()`. -/
def analyze_message_structure (message : String) : ℚ :=
  let low := lowerL message.data
  (if rxMatch greetingRx message.data then 2/10 else 0) +
  (if 2 ≤ ((["в рамках", "по нашим данным", "требуется", "рекомендуем", "предлагаем"] :
      List String).filter (fun p => inText p.data low)).length then 3/10 else 0) +
  (if ((["срочно", "немедленно"] : List String).any (fun w => inText w.data low)) &&
      ((["требуется", "рекомендуем"] : List String).any (fun w => inText w.data low))
   then 4/10 else 0)

/-- `_analyze_psychological_pressure` (source lines 164–183). -/
def analyze_psychological_pressure (message : String) : ℚ :=
  let low := lowerL message.data
  (if (["во избежание", "последствий", "правовых"] : List String).any
      (fun p => inText p.data low) then 4/10 else 0) +
  (if (["в течение часа", "скорее", "последний шанс"] : List String).any
      (fun p => inText p.data low) then 3/10 else 0) +
  (if (["просто ответьте", "ведите цифру", "оставьте комментарий"] : List String).any
      (fun p => inText p.data low) then 3/10 else 0)

/-- Python `set(xs)` then `', '.join`: iteration order of a CPython `str`
set is implementation-defined; it is modelled as first-occurrence order. -/
def pySetJoin (xs : List String) : String := String.intercalate ", " xs.eraseDups

/-- `_generate_detailed_reason` (source lines 185–209). -/
def generate_detailed_reason (patterns contexts : List String) (redFlagCount : Nat)
    (structureScore pressureScore : ℚ) : String :=
  let reasons : List String :=
    (if patterns ≠ [] then ["паттерны: " ++ pySetJoin patterns] else []) ++
    (if contexts ≠ [] then ["контекст: " ++ pySetJoin contexts] else []) ++
    (if redFlagCount > 0 then ["ключевые слова: " ++ toString redFlagCount] else []) ++
    (if structureScore > 3/10 then ["подозрительная структура"] else []) ++
    (if pressureScore > 3/10 then ["психологическое давление"] else [])
  if reasons = [] then "Контекстный анализ: признаки не обнаружены"
  else "Контекстный анализ: " ++ String.intercalate ", " reasons

/-- The running `total_score` of `_contextual_analysis` just before the
clamp of source line 132: the six additive passes of source lines 99–130. -/
def contextual_total (message : String) : ℚ :=
  let text_lower := lowerL message.data
  (patternLoop text_lower fraud_patterns).1 +
  (triggerLoop text_lower context_triggers).1 +
  analyze_message_structure message +
  analyze_psychological_pressure message +
  (((red_flags.filter (fun w => inText w.data text_lower)).length : ℚ) * (2/10)) +
  (if rxSearch rxCardBonus text_lower then 8/10 else 0) +
  (if rxSearch rxRubles text_lower then 4/10 else 0)

/-- `_contextual_analysis` (source lines 90–141). -/
def contextual_analysis (message : String) : AnalysisResult :=
  let text_lower := lowerL message.data
  let total_score := pyMin (contextual_total message) 1
  let reason := generate_detailed_reason
    (patternLoop text_lower fraud_patterns).2
    (triggerLoop text_lower context_triggers).2
    (red_flags.filter (fun w => inText w.data text_lower)).length
    (analyze_message_structure message)
    (analyze_psychological_pressure message)
  create_response (decide (total_score > 3/10)) total_score reason false none

/-- Python `dict.get` on the modelled JSON object fields. -/
def jsonGet (fields : List (String × JsonV)) (key : String) : Option JsonV :=
  (fields.find? (fun kv => kv.1 == key)).map Prod.snd

/-- Body of the success branch of `_parse_ai_response` once
`generated_text` is a string (source lines 266–281). -/
def aiVerdict (generated_text : String) : AiResult :=
  let text_lower := lowerL generated_text.data
  let hit := inText "fraud: yes".data text_lower || inText "мошенничество".data text_lower
  let confidence : ℚ := if hit then 7/10 else 3/10
  let reason := if hit then "AI: обнаружены признаки социальной инженерии"
                else "AI: возможны элементы манипуляции"
  { is_fraud := decide (confidence > 1/2)
    confidence := confidence
    reason := reason
    ai_used := true }

/-- `_parse_ai_response` (source lines 258–287).  A body that is not a
non-empty list yields `None`; a first element that is not an object makes
`.get` raise, caught by the handler (`None`); a `generated_text` value
that is not a string makes `.lower()` raise, caught (`None`); a missing
`generated_text` key defaults to the empty string. -/
def parse_ai_response : JsonV → Option AiResult
  | .arr (x :: _) =>
    match x with
    | .obj fields =>
      match jsonGet fields "generated_text" with
      | none => some (aiVerdict "")
      | some (.str s) => some (aiVerdict s)
      | some _ => none
    | _ => none
  | _ => none

/-- `_analyze_with_ai` (source lines 211–256), over the HTTP oracle: an
exception or a `response.json()` failure is caught (`None`); a non-200
status returns `None`; a 200 status parses the body. -/
def analyze_with_ai (http : HttpResult) (_message : String) : Option AiResult :=
  match http with
  | .exn => none
  | .resp status body =>
    if status = 200 then
      match body with
      | none => none
      | some j => parse_ai_response j
    else none

/-- `_combine_results` (source lines 289–301). -/
def combine_results (contextual : AnalysisResult) (ai : AiResult) : AnalysisResult :=
  let combined_confidence := (contextual.confidence + ai.confidence) / 2
  { is_fraud := decide (combined_confidence > 4/10)
    confidence := combined_confidence
    reason := contextual.reason ++ " | " ++ ai.reason
    risk_level := get_risk_level combined_confidence
    ai_used := true }

/-- `analyze_message` (source lines 72–88). -/
def analyze_message (cfg : Config) (message : String) : AnalysisResult :=
  if message = "" ∨ (pyStrip message.data).length < 3 then
    create_response false 0 "Сообщение слишком короткое" false none
  else
    let context_result := contextual_analysis message
    if cfg.api_key then
      match analyze_with_ai cfg.http message with
      | some ai_result => combine_results context_result ai_result
      | none => context_result
    else context_result

/-- The bodies on which `_parse_ai_response` returns `None`: not a
non-empty JSON array, first element not an object, or a `generated_text`
value that is present but not a string.  (A missing `generated_text` key
is NOT here: `.get` defaults it to the empty string.) -/
def parseFails : JsonV → Bool
  | .arr (x :: _) =>
    (match x with
     | .obj fields =>
       (match jsonGet fields "generated_text" with
        | some (.str _) => false
        | some _ => true
        | none => false)
     | _ => true)
  | _ => true

/-- The HTTP outcomes on which the adapter produces no result: a raised
request, a non-200 status, an unparsable body, or a body in `parseFails`. -/
def adapter_failure : HttpResult → Bool
  | .exn => true
  | .resp status body =>
    if status = 200 then
      (match body with
       | none => true
       | some j => parseFails j)
    else true

/-- The character preceding the position reached after consuming `cs`,
starting from previous character `p`. -/
def prevAfter : List Char → Option Char → Option Char
  | [], p => p
  | c :: cs, _ => prevAfter cs (some c)

/-- A successful adapter response used as the C6 witness environment. -/
def c6http : HttpResult :=
  .resp 200 (some (.arr [.obj [("generated_text", JsonV.str "FRAUD: yes")]]))

/-- The adapter result parsed from `c6http`. -/
def c6ai : AiResult :=
  ⟨true, 7/10, "AI: обнаружены признаки социальной инженерии", true⟩

/-! Helper lemmas about the embedded analyzer. -/

theorem patternLoop_fst_nonneg (text : List Char) :
    ∀ ps : List FraudPattern, (∀ p ∈ ps, 0 ≤ p.weight) → 0 ≤ (patternLoop text ps).1 := by
  intro ps
  induction ps with
  | nil => intro _; simp [patternLoop]
  | cons q rest ih =>
    intro h
    have hrest : 0 ≤ (patternLoop text rest).1 :=
      ih (fun p hp => h p (List.mem_cons_of_mem _ hp))
    simp only [patternLoop]
    split
    · exact add_nonneg (h q (List.mem_cons_self q rest)) hrest
    · exact hrest

theorem triggerLoop_fst_nonneg (text : List Char) :
    ∀ gs : List (String × List String), 0 ≤ (triggerLoop text gs).1 := by
  intro gs
  induction gs with
  | nil => simp [triggerLoop]
  | cons g rest ih =>
    simp only [triggerLoop]
    split
    · positivity
    · exact ih

theorem fraud_patterns_weight_nonneg : ∀ p ∈ fraud_patterns, 0 ≤ p.weight := by
  with_unfolding_all decide

theorem ite_nonneg {c : Prop} [Decidable c] {a b : ℚ} (ha : 0 ≤ a) (hb : 0 ≤ b) :
    0 ≤ if c then a else b := by
  split
  · exact ha
  · exact hb

theorem analyze_message_structure_nonneg (m : String) : 0 ≤ analyze_message_structure m := by
  unfold analyze_message_structure
  exact add_nonneg (add_nonneg (ite_nonneg (by norm_num) le_rfl)
    (ite_nonneg (by norm_num) le_rfl)) (ite_nonneg (by norm_num) le_rfl)

theorem analyze_psychological_pressure_nonneg (m : String) :
    0 ≤ analyze_psychological_pressure m := by
  unfold analyze_psychological_pressure
  exact add_nonneg (add_nonneg (ite_nonneg (by norm_num) le_rfl)
    (ite_nonneg (by norm_num) le_rfl)) (ite_nonneg (by norm_num) le_rfl)

theorem contextual_total_nonneg (m : String) : 0 ≤ contextual_total m := by
  unfold contextual_total
  have h1 := patternLoop_fst_nonneg (lowerL m.data) fraud_patterns fraud_patterns_weight_nonneg
  have h2 := triggerLoop_fst_nonneg (lowerL m.data) context_triggers
  have h3 := analyze_message_structure_nonneg m
  have h4 := analyze_psychological_pressure_nonneg m
  have h5 : (0:ℚ) ≤ (((red_flags.filter
      (fun w => inText w.data (lowerL m.data))).length : ℚ) * (2/10)) := by positivity
  have h6 : (0:ℚ) ≤ (if rxSearch rxCardBonus (lowerL m.data) then (8:ℚ)/10 else 0) :=
    ite_nonneg (by norm_num) le_rfl
  have h7 : (0:ℚ) ≤ (if rxSearch rxRubles (lowerL m.data) then (4:ℚ)/10 else 0) :=
    ite_nonneg (by norm_num) le_rfl
  linarith

theorem contextual_analysis_confidence_eq (m : String) :
    (contextual_analysis m).confidence = pyMin (contextual_total m) 1 := rfl

theorem contextual_analysis_ai_used (m : String) :
    (contextual_analysis m).ai_used = false := rfl

theorem contextual_confidence_bounds (m : String) :
    0 ≤ (contextual_analysis m).confidence ∧ (contextual_analysis m).confidence ≤ 1 := by
  rw [contextual_analysis_confidence_eq]
  unfold pyMin
  split
  · exact ⟨contextual_total_nonneg m, by assumption⟩
  · exact ⟨by norm_num, le_refl 1⟩

theorem aiVerdict_confidence (s : String) :
    (aiVerdict s).confidence = 7/10 ∨ (aiVerdict s).confidence = 3/10 := by
  by_cases h : (inText "fraud: yes".data (lowerL s.data) ||
      inText "мошенничество".data (lowerL s.data)) = true
  · left; simp [aiVerdict, h]
  · right; simp [aiVerdict, h]

theorem parse_ai_response_confidence (j : JsonV) (r : AiResult)
    (h : parse_ai_response j = some r) :
    r.confidence = 7/10 ∨ r.confidence = 3/10 := by
  rcases j with s | xs | fields | _
  · cases h
  · rcases xs with _ | ⟨x, xs⟩
    · cases h
    · rcases x with s | ys | fields | _
      · cases h
      · cases h
      · rcases hg : jsonGet fields "generated_text" with _ | v
        · simp only [parse_ai_response, hg, Option.some.injEq] at h
          subst h
          exact aiVerdict_confidence ""
        · rcases v with s | _ | _ | _
          · simp only [parse_ai_response, hg, Option.some.injEq] at h
            subst h
            exact aiVerdict_confidence s
          · simp only [parse_ai_response, hg] at h; cases h
          · simp only [parse_ai_response, hg] at h; cases h
          · simp only [parse_ai_response, hg] at h; cases h
      · cases h
  · cases h
  · cases h

theorem analyze_with_ai_confidence (http : HttpResult) (m : String) (r : AiResult)
    (h : analyze_with_ai http m = some r) :
    r.confidence = 7/10 ∨ r.confidence = 3/10 := by
  rcases http with _ | ⟨status, body⟩
  · cases h
  · by_cases hs : status = 200
    · subst hs
      rcases body with _ | j
      · simp [analyze_with_ai] at h
      · simp only [analyze_with_ai, if_pos, reduceIte] at h
        exact parse_ai_response_confidence j r h
    · simp [analyze_with_ai, hs] at h

/-! Claim theorems. -/

/-- C1: for every non-empty message text, the confidence of the
`AnalysisResult` returned by `analyze_message` lies in [0, 1]: on the
content-only path the total score is a sum of non-negative increments
clamped with `min(total_score, 1.0)`, and on the blended path it is the
arithmetic mean of two values each in [0, 1]. -/
theorem C1_confidence_in_unit_interval (cfg : Config) (msg : String) (hne : msg ≠ "") :
    0 ≤ (analyze_message cfg msg).confidence ∧ (analyze_message cfg msg).confidence ≤ 1 := by
  unfold analyze_message
  by_cases hshort : msg = "" ∨ (pyStrip msg.data).length < 3
  · rw [if_pos hshort]
    constructor <;> norm_num [create_response]
  · rw [if_neg hshort]
    by_cases hk : cfg.api_key
    · rw [if_pos hk]
      rcases hai : analyze_with_ai cfg.http msg with _ | ai
      · exact contextual_confidence_bounds msg
      · have hc := contextual_confidence_bounds msg
        have ha := analyze_with_ai_confidence cfg.http msg ai hai
        simp only [combine_results]
        rcases ha with ha | ha <;> rw [ha] <;> constructor <;> [linarith; linarith; linarith; linarith]
    · rw [if_neg hk]
      exact contextual_confidence_bounds msg

/-- Witness for C1 at a concrete non-empty message. -/
theorem C1_confidence_in_unit_interval_witness :
    ("про банк" : String) ≠ "" ∧
    (0 ≤ (analyze_message ⟨false, .exn⟩ "про банк").confidence ∧
      (analyze_message ⟨false, .exn⟩ "про банк").confidence ≤ 1) :=
  ⟨by decide, C1_confidence_in_unit_interval ⟨false, .exn⟩ "про банк" (by decide)⟩

/-- C2: for every input that is empty or whose trimmed length is below 3,
`analyze_message` returns the fixed short-message result (not fraud, zero
confidence, minimal risk, fixed rationale, `ai_used = false`) regardless of
the configuration, so the external classifier is never consulted. -/
theorem C2_short_message_terminal (cfg : Config) (msg : String)
    (h : msg = "" ∨ (pyStrip msg.data).length < 3) :
    analyze_message cfg msg =
      ⟨false, 0, "минимальный", "Сообщение слишком короткое", false⟩ := by
  unfold analyze_message
  rw [if_pos h]
  unfold create_response get_risk_level
  norm_num

/-- Witness for C2 at a concrete two-character message with a configured
API credential. -/
theorem C2_short_message_terminal_witness :
    (("ab" : String) = "" ∨ (pyStrip ("ab" : String).data).length < 3) ∧
    analyze_message ⟨true, .exn⟩ "ab" =
      ⟨false, 0, "минимальный", "Сообщение слишком короткое", false⟩ :=
  ⟨Or.inr (by decide), C2_short_message_terminal ⟨true, .exn⟩ "ab" (Or.inr (by decide))⟩

/-- C3: `_get_risk_level` uses exclusive lower bounds checked in
descending order with first match winning; in particular exactly 0.7 maps
to medium and exactly 0.3 maps to minimal. -/
theorem C3_risk_level_breakpoints (s : ℚ) :
    (7/10 < s → get_risk_level s = "высокий") ∧
    (1/2 < s → s ≤ 7/10 → get_risk_level s = "средний") ∧
    (3/10 < s → s ≤ 1/2 → get_risk_level s = "низкий") ∧
    (s ≤ 3/10 → get_risk_level s = "минимальный") ∧
    get_risk_level (7/10) = "средний" ∧
    get_risk_level (3/10) = "минимальный" := by
  refine ⟨?_, ?_, ?_, ?_, ?_, ?_⟩
  · intro h
    unfold get_risk_level
    rw [if_pos h]
  · intro h1 h2
    unfold get_risk_level
    rw [if_neg (by simpa using h2), if_pos h1]
  · intro h1 h2
    unfold get_risk_level
    rw [if_neg (by simp; linarith), if_neg (by simpa using h2), if_pos h1]
  · intro h
    unfold get_risk_level
    rw [if_neg (by simp; linarith), if_neg (by simp; linarith), if_neg (by simpa using h)]
  · norm_num [get_risk_level]
  · norm_num [get_risk_level]

/-- Witness for C3: the four breakpoint regions at concrete scores. -/
theorem C3_risk_level_breakpoints_witness :
    get_risk_level (8/10) = "высокий" ∧ get_risk_level (6/10) = "средний" ∧
    get_risk_level (4/10) = "низкий" ∧ get_risk_level (1/10) = "минимальный" ∧
    get_risk_level (7/10) = "средний" ∧ get_risk_level (3/10) = "минимальный" :=
  ⟨(C3_risk_level_breakpoints (8/10)).1 (by norm_num),
   (C3_risk_level_breakpoints (6/10)).2.1 (by norm_num) (by norm_num),
   (C3_risk_level_breakpoints (4/10)).2.2.1 (by norm_num) (by norm_num),
   (C3_risk_level_breakpoints (1/10)).2.2.2.1 (by norm_num),
   (C3_risk_level_breakpoints 0).2.2.2.2.1,
   (C3_risk_level_breakpoints 0).2.2.2.2.2⟩

/-- C9: with the external adapter disabled the analysis is a pure function
of the message text alone: the result does not depend on the HTTP world at
all (the embedding is stateless because the source methods never assign to
`self`; the rule tables are constants). -/
theorem C9_pure_when_disabled (msg : String) (h1 h2 : HttpResult) :
    analyze_message ⟨false, h1⟩ msg = analyze_message ⟨false, h2⟩ msg := rfl

theorem triggerLoop_spec (text : List Char) :
    ∀ gs : List (String × List String),
      (triggerLoop text gs).1 =
        3/10 * ((gs.filter (fun g => g.2.any (fun t => inText t.data text))).length : ℚ) ∧
      (triggerLoop text gs).2 =
        (gs.filter (fun g => g.2.any (fun t => inText t.data text))).map Prod.fst := by
  intro gs
  induction gs with
  | nil => simp [triggerLoop]
  | cons g rest ih =>
    have hfind : ((g.2.find? (fun t => inText t.data text)).isSome) =
        g.2.any (fun t => inText t.data text) := by
      rw [Bool.eq_iff_iff, List.find?_isSome, List.any_eq_true]
    simp only [triggerLoop, hfind]
    rcases hany : g.2.any (fun t => inText t.data text) with _ | _
    · simpa [List.filter_cons, hany] using ih
    · refine ⟨?_, ?_⟩
      · simp only [List.filter_cons, hany, if_pos, List.length_cons, ih.1]
        push_cast
        ring
      · simp [List.filter_cons, hany, ih.2]

/-- C4: the contextual trigger pass adds exactly 0.3 once per trigger
group that has at least one member substring occurring in the text
(regardless of how many members occur), and records each such group name
exactly once. -/
theorem C4_trigger_group_dedup (text : List Char) :
    (triggerLoop text context_triggers).1 =
      3/10 * ((context_triggers.filter
        (fun g => g.2.any (fun t => inText t.data text))).length : ℚ) ∧
    (triggerLoop text context_triggers).2 =
      (context_triggers.filter
        (fun g => g.2.any (fun t => inText t.data text))).map Prod.fst ∧
    ((triggerLoop text context_triggers).2).Nodup := by
  obtain ⟨h1, h2⟩ := triggerLoop_spec text context_triggers
  refine ⟨h1, h2, ?_⟩
  rw [h2]
  have hsub : ((context_triggers.filter
        (fun g => g.2.any (fun t => inText t.data text))).map Prod.fst).Sublist
      (context_triggers.map Prod.fst) :=
    (List.filter_sublist _).map Prod.fst
  exact (by decide : (context_triggers.map Prod.fst).Nodup).sublist hsub

/-- C5: on the concrete card-number message with the adapter disabled,
the card-number fraud pattern (weight 1.0, type financial) and the
standalone 16-digit grouped-number bonus both fire, and the analysis
returns fraud with confidence clamped to exactly 1. -/
theorem C5_card_number_message :
    (⟨rxNaKartu, 1, "financial"⟩ : FraudPattern) ∈ fraud_patterns ∧
    rxSearch rxNaKartu (lowerL ("переведите на карту 1234 5678 9012 3456" : String).data) = true ∧
    rxSearch rxCardBonus (lowerL ("переведите на карту 1234 5678 9012 3456" : String).data) = true ∧
    analyze_message ⟨false, .exn⟩ "переведите на карту 1234 5678 9012 3456" =
      ⟨true, 1, "высокий", "Контекстный анализ: паттерны: financial, ключевые слова: 2", false⟩ := by
  with_unfolding_all decide

/-- C10: the message consisting of the two formal phrases gets confidence
0.3 from the structural pass alone, strictly positive, and yet its reason
is the fixed no-indicators string, because the structural flag is only
reported when the structural score strictly exceeds 0.3. -/
theorem C10_positive_confidence_no_indicators :
    0 < (analyze_message ⟨false, .exn⟩ "в рамках предлагаем").confidence ∧
    (analyze_message ⟨false, .exn⟩ "в рамках предлагаем").confidence = 3/10 ∧
    (analyze_message ⟨false, .exn⟩ "в рамках предлагаем").reason =
      "Контекстный анализ: признаки не обнаружены" ∧
    analyze_message_structure "в рамках предлагаем" = 3/10 ∧
    inText ("в рамках" : String).data (lowerL ("в рамках предлагаем" : String).data) = true ∧
    inText ("предлагаем" : String).data (lowerL ("в рамках предлагаем" : String).data) = true := by
  with_unfolding_all decide

/-- C6: whenever both a content-only result and an adapter result exist,
the final result is their blend: confidence is the arithmetic mean,
fraud holds exactly when the mean strictly exceeds 0.4, the reason is the
two rationales joined by the delimiter, and `ai_used` is true. -/
theorem C6_blend_is_mean (cfg : Config) (msg : String) (ai : AiResult)
    (hlen : ¬(msg = "" ∨ (pyStrip msg.data).length < 3))
    (hkey : cfg.api_key = true)
    (hai : analyze_with_ai cfg.http msg = some ai) :
    analyze_message cfg msg = combine_results (contextual_analysis msg) ai ∧
    (analyze_message cfg msg).confidence =
      ((contextual_analysis msg).confidence + ai.confidence) / 2 ∧
    ((analyze_message cfg msg).is_fraud = true ↔
      4/10 < ((contextual_analysis msg).confidence + ai.confidence) / 2) ∧
    (analyze_message cfg msg).reason =
      (contextual_analysis msg).reason ++ " | " ++ ai.reason ∧
    (analyze_message cfg msg).ai_used = true := by
  have hmain : analyze_message cfg msg = combine_results (contextual_analysis msg) ai := by
    unfold analyze_message
    rw [if_neg hlen]
    simp only [hkey, if_true, hai]
  refine ⟨hmain, ?_, ?_, ?_, ?_⟩ <;> rw [hmain] <;>
    simp [combine_results, decide_eq_true_iff]

/-- Witness for C6: content-only confidence 0.2 blended with adapter
confidence 0.7 gives 0.45 > 0.4, hence fraud, although the content-only
path alone said not fraud (0.2 ≤ 0.3). -/
theorem C6_blend_is_mean_witness :
    analyze_message ⟨true, c6http⟩ "про банк" =
      combine_results (contextual_analysis "про банк") c6ai ∧
    (analyze_message ⟨true, c6http⟩ "про банк").confidence = 9/20 ∧
    (analyze_message ⟨true, c6http⟩ "про банк").is_fraud = true ∧
    (analyze_message ⟨true, c6http⟩ "про банк").ai_used = true ∧
    (contextual_analysis "про банк").confidence = 1/5 ∧
    (contextual_analysis "про банк").is_fraud = false := by
  have h := C6_blend_is_mean ⟨true, c6http⟩ "про банк" c6ai (by decide) rfl
    (by with_unfolding_all decide)
  refine ⟨h.1, ?_, ?_, h.2.2.2.2, by with_unfolding_all decide, by with_unfolding_all decide⟩
  · rw [h.2.1]; with_unfolding_all decide
  · rw [h.1]; with_unfolding_all decide

/-- C7 counterexample: in this message the greeting phrase is followed by
a space (not punctuation), yet the structural analyzer still adds the 0.2
greeting increment, because the source regex allows arbitrary non-newline
characters between the greeting and a later exclamation mark. -/
theorem C7_greeting_counterexample :
    ("Здравствуйте друг!" : String).data =
      ("Здравствуйте" : String).data ++ (' ' :: ("друг!" : String).data) ∧
    rxMatch greetingRx ("Здравствуйте друг!" : String).data = true ∧
    analyze_message_structure "Здравствуйте друг!" = 2/10 := by
  with_unfolding_all decide

/-- C8 counterexample: a 200 response whose body is the non-empty array
`[{}]` bears no `generated_text` string, yet the adapter returns a result
(the 0.3 advisory verdict) rather than no result, and the final analysis
is a blend with `ai_used = true` instead of the content-only result. -/
theorem C8_adapter_malformed_counterexample :
    analyze_with_ai (.resp 200 (some (.arr [.obj []]))) "про банк" =
      some ⟨false, 3/10, "AI: возможны элементы манипуляции", true⟩ ∧
    (analyze_message ⟨true, .resp 200 (some (.arr [.obj []]))⟩ "про банк").ai_used = true ∧
    (analyze_message ⟨true, .resp 200 (some (.arr [.obj []]))⟩ "про банк").confidence = 1/4 ∧
    (contextual_analysis "про банк").ai_used = false ∧
    (contextual_analysis "про банк").confidence = 1/5 := by
  with_unfolding_all decide

theorem parse_fails_none (j : JsonV) (h : parseFails j = true) :
    parse_ai_response j = none := by
  rcases j with s | xs | fields | _
  · rfl
  · rcases xs with _ | ⟨x, xs⟩
    · rfl
    · rcases x with s | ys | fields | _
      · rfl
      · rfl
      · rcases hg : jsonGet fields "generated_text" with _ | v
        · simp [parseFails, hg] at h
        · rcases v with s | _ | _ | _
          · simp [parseFails, hg] at h
          · simp [parse_ai_response, hg]
          · simp [parse_ai_response, hg]
          · simp [parse_ai_response, hg]
      · rfl
  · rfl
  · rfl

theorem adapter_failure_none (http : HttpResult) (m : String)
    (h : adapter_failure http = true) : analyze_with_ai http m = none := by
  rcases http with _ | ⟨s, b⟩
  · rfl
  · by_cases hs : s = 200
    · subst hs
      rcases b with _ | j
      · simp [analyze_with_ai]
      · simp only [adapter_failure, reduceIte] at h
        simp only [analyze_with_ai, reduceIte]
        exact parse_fails_none j h
    · simp [analyze_with_ai, hs]

theorem analyze_message_disabled_ai_used (http : HttpResult) (m : String) :
    (analyze_message ⟨false, http⟩ m).ai_used = false := by
  unfold analyze_message
  split
  · rfl
  · rfl

theorem analyze_message_disabled_eq_contextual (http : HttpResult) (m : String)
    (hs : ¬(m = "" ∨ (pyStrip m.data).length < 3)) :
    analyze_message ⟨false, http⟩ m = contextual_analysis m := by
  unfold analyze_message
  rw [if_neg hs]
  rfl

/-- C8 amended: the adapter yields no result exactly on a raised request,
a non-200 status, an unparsable body, a body that is not a non-empty JSON
array, a first element that is not an object, or a `generated_text` value
that is not a string — a first element that merely lacks the
`generated_text` key still yields the 0.3 advisory result.  Whenever the
adapter yields no result, `analyze_message` returns exactly the
content-only result with `ai_used = false`. -/
theorem C8_adapter_failure_fallback (cfg : Config) (msg : String)
    (h : adapter_failure cfg.http = true) :
    analyze_with_ai cfg.http msg = none ∧
    analyze_message cfg msg = analyze_message ⟨false, cfg.http⟩ msg ∧
    (analyze_message cfg msg).ai_used = false ∧
    (¬(msg = "" ∨ (pyStrip msg.data).length < 3) →
      analyze_message cfg msg = contextual_analysis msg) := by
  rcases cfg with ⟨key, http⟩
  have hnone := adapter_failure_none http msg h
  have h2 : analyze_message ⟨key, http⟩ msg = analyze_message ⟨false, http⟩ msg := by
    unfold analyze_message
    by_cases hshort : msg = "" ∨ (pyStrip msg.data).length < 3
    · rw [if_pos hshort, if_pos hshort]
    · rw [if_neg hshort, if_neg hshort]
      rcases key with _ | _
      · simp
      · simp [hnone]
  refine ⟨hnone, h2, ?_, ?_⟩
  · rw [h2]; exact analyze_message_disabled_ai_used http msg
  · intro hs
    rw [h2]; exact analyze_message_disabled_eq_contextual http msg hs

/-- Witness for C8 amended: a 500 status falls back to the content-only
result. -/
theorem C8_adapter_failure_fallback_witness :
    adapter_failure (.resp 500 none) = true ∧
    analyze_with_ai (.resp 500 none) "про банк" = none ∧
    analyze_message ⟨true, .resp 500 none⟩ "про банк" = contextual_analysis "про банк" ∧
    (analyze_message ⟨true, .resp 500 none⟩ "про банк").ai_used = false := by
  have h := C8_adapter_failure_fallback ⟨true, .resp 500 none⟩ "про банк" (by decide)
  exact ⟨by decide, h.1, h.2.2.2 (by decide), h.2.2.1⟩

/-! Characterization of the greeting regex, for claim C7. -/

theorem litRx_run (cs : List Char) : ∀ (p : Option Char) (t : List Char),
    rxRun (litRx cs) p t =
      if cs.isPrefixOf t then [(prevAfter cs p, t.drop cs.length)] else [] := by
  induction cs with
  | nil =>
    intro p t
    simp [litRx, rxRun, prevAfter, List.isPrefixOf]
  | cons c cs ih =>
    intro p t
    have hseq : rxRun (litRx (c :: cs)) p t =
        (rxRun (.ch c) p t).flatMap (fun pr => rxRun (litRx cs) pr.1 pr.2) := rfl
    rcases t with _ | ⟨x, xs⟩
    · rw [hseq]
      simp [rxRun, List.isPrefixOf]
    · by_cases hx : x = c
      · subst hx
        rw [hseq]
        have hch : rxRun (Rx.ch x) p (x :: xs) = [(some x, xs)] := by simp [rxRun]
        rw [hch, List.flatMap_cons, List.flatMap_nil, List.append_nil, ih (some x) xs]
        have hpre : (x :: cs).isPrefixOf (x :: xs) = cs.isPrefixOf xs := by
          simp [List.isPrefixOf]
        rw [hpre]
        rfl
      · rw [hseq]
        have hch : rxRun (Rx.ch c) p (x :: xs) = [] := by simp [rxRun, hx]
        rw [hch, List.flatMap_nil]
        have hpre : (c :: cs).isPrefixOf (x :: xs) = false := by
          simp [List.isPrefixOf, Ne.symm hx]
        rw [hpre]
        rfl

theorem run_dotBang_cons (p : Option Char) (x : Char) (xs : List Char) :
    rxRun greetTail p (x :: xs) =
      (if x = '!' then [(some x, xs)] else []) ++
      (if (x != '\n') = true then rxRun greetTail (some x) xs else []) := by
  show (manyRun .dot p (x :: xs)).flatMap _ = _
  rw [manyRun, List.flatMap_cons]
  by_cases hn : (x != '\n') = true
  · rw [if_pos (show ccMatch .dot x = true from hn), if_pos hn]
    rfl
  · rw [if_neg (show ¬ccMatch .dot x = true from hn), if_neg hn]
    rfl

theorem run_dotBang_ne_nil : ∀ (t : List Char) (p : Option Char),
    rxRun greetTail p t ≠ [] ↔
      ∃ mid rest : List Char, t = mid ++ '!' :: rest ∧ '\n' ∉ mid := by
  intro t
  induction t with
  | nil =>
    intro p
    constructor
    · intro h
      exact absurd rfl h
    · rintro ⟨mid, rest, heq, -⟩
      rcases mid with _ | ⟨m, mid⟩ <;> cases heq
  | cons x xs ih =>
    intro p
    rw [run_dotBang_cons p x xs]
    constructor
    · intro h
      by_cases hb : x = '!'
      · exact ⟨[], xs, by rw [hb]; rfl, by simp⟩
      · rw [if_neg hb, List.nil_append] at h
        by_cases hn : (x != '\n') = true
        · rw [if_pos hn] at h
          obtain ⟨mid, rest, heq, hnl⟩ := (ih (some x)).mp h
          refine ⟨x :: mid, rest, by rw [heq]; rfl, ?_⟩
          intro hmem
          rcases List.mem_cons.mp hmem with h1 | h1
          · rw [← h1] at hn
            exact absurd hn (by decide)
          · exact hnl h1
        · rw [if_neg hn] at h
          exact absurd rfl h
    · rintro ⟨mid, rest, heq, hnl⟩
      rcases mid with _ | ⟨m, mid⟩
      · obtain ⟨rfl, rfl⟩ : x = '!' ∧ xs = rest := by cases heq; exact ⟨rfl, rfl⟩
        rw [if_pos rfl]
        simp
      · obtain ⟨rfl, hxs⟩ : x = m ∧ xs = mid ++ '!' :: rest := by cases heq; exact ⟨rfl, rfl⟩
        have hm : ¬('\n' = x) := fun h => hnl (h ▸ List.mem_cons_self '\n' mid)
        have hn : (x != '\n') = true := by
          simp only [bne_iff_ne, ne_eq]
          exact fun hh => hm hh.symm
        rw [if_pos hn]
        have htail : rxRun greetTail (some x) xs ≠ [] :=
          (ih (some x)).mpr ⟨mid, rest, hxs, fun hmm => hnl (List.mem_cons_of_mem _ hmm)⟩
        intro hcon
        exact htail (List.append_eq_nil.mp hcon).2

theorem rxMatch_ne_nil (r : Rx) (t : List Char) :
    rxMatch r t = true ↔ rxRun r none t ≠ [] := by
  unfold rxMatch
  rcases h : rxRun r none t with _ | _ <;> simp [h]

theorem flatMap_ite_single {c : Prop} [Decidable c] (a : Option Char × List Char)
    (k : Option Char × List Char → List (Option Char × List Char)) :
    (if c then [a] else []).flatMap k = if c then k a else [] := by
  split <;> simp

theorem greeting_run (t : List Char) :
    rxRun greetingRx none t =
      (if ("Здравствуйте" : String).data.isPrefixOf t then
        rxRun greetTail (prevAfter ("Здравствуйте" : String).data none)
          (t.drop ("Здравствуйте" : String).data.length) else []) ++
      ((if ("Уважаем" : String).data.isPrefixOf t then
        rxRun greetTail (prevAfter ("Уважаем" : String).data none)
          (t.drop ("Уважаем" : String).data.length) else []) ++
      (if ("Добрый день" : String).data.isPrefixOf t then
        rxRun greetTail (prevAfter ("Добрый день" : String).data none)
          (t.drop ("Добрый день" : String).data.length) else [])) := by
  have halt : rxRun (Rx.alt (strLit "Здравствуйте")
      (.alt (strLit "Уважаем") (strLit "Добрый день"))) none t =
      rxRun (strLit "Здравствуйте") none t ++
        (rxRun (strLit "Уважаем") none t ++ rxRun (strLit "Добрый день") none t) := rfl
  show (rxRun (Rx.alt (strLit "Здравствуйте")
      (.alt (strLit "Уважаем") (strLit "Добрый день"))) none t).flatMap
        (fun pr => rxRun greetTail pr.1 pr.2) = _
  rw [halt, List.flatMap_append, List.flatMap_append]
  simp only [strLit]
  rw [litRx_run, litRx_run, litRx_run,
    flatMap_ite_single, flatMap_ite_single, flatMap_ite_single]

theorem greet_branch_ne_nil (g : String) (t : List Char)
    (h : ∃ mid rest : List Char, t = g.data ++ (mid ++ '!' :: rest) ∧ '\n' ∉ mid) :
    (if g.data.isPrefixOf t then
      rxRun greetTail (prevAfter g.data none) (t.drop g.data.length) else []) ≠ [] := by
  obtain ⟨mid, rest, rfl, hnl⟩ := h
  have hpre : g.data.isPrefixOf (g.data ++ (mid ++ '!' :: rest)) = true :=
    List.isPrefixOf_iff_prefix.mpr ⟨_, rfl⟩
  rw [if_pos hpre, List.drop_left]
  exact (run_dotBang_ne_nil _ _).mpr ⟨mid, rest, rfl, hnl⟩

theorem greet_branch_spec (g : String) (t : List Char)
    (h : (if g.data.isPrefixOf t then
      rxRun greetTail (prevAfter g.data none) (t.drop g.data.length) else []) ≠ []) :
    ∃ mid rest : List Char, t = g.data ++ (mid ++ '!' :: rest) ∧ '\n' ∉ mid := by
  by_cases hpre : g.data.isPrefixOf t
  · rw [if_pos hpre] at h
    obtain ⟨mid, rest, hdrop, hnl⟩ := (run_dotBang_ne_nil _ _).mp h
    have happ : g.data ++ t.drop g.data.length = t :=
      List.prefix_iff_eq_append.mp (List.isPrefixOf_iff_prefix.mp hpre)
    exact ⟨mid, rest, by rw [← happ, hdrop], hnl⟩
  · rw [if_neg hpre] at h
    exact absurd rfl h

/-- C7 amended: the structural analyzer's 0.2 greeting increment (the
`rxMatch greetingRx` test in `analyze_message_structure`) fires exactly
for the messages that begin with a greeting-class phrase and contain an
exclamation mark somewhere after it with no newline in between — the
punctuation need not immediately follow the greeting. -/
theorem C7_greeting_increment_iff (msg : String) :
    rxMatch greetingRx msg.data = true ↔
      ∃ g ∈ (["Здравствуйте", "Уважаем", "Добрый день"] : List String),
        ∃ mid rest : List Char,
          msg.data = g.data ++ (mid ++ '!' :: rest) ∧ '\n' ∉ mid := by
  rw [rxMatch_ne_nil, greeting_run]
  constructor
  · intro h
    by_cases h1 : (if ("Здравствуйте" : String).data.isPrefixOf msg.data then
        rxRun greetTail (prevAfter ("Здравствуйте" : String).data none)
          (msg.data.drop ("Здравствуйте" : String).data.length) else []) = []
    · by_cases h2 : (if ("Уважаем" : String).data.isPrefixOf msg.data then
          rxRun greetTail (prevAfter ("Уважаем" : String).data none)
            (msg.data.drop ("Уважаем" : String).data.length) else []) = []
      · have h3 : (if ("Добрый день" : String).data.isPrefixOf msg.data then
            rxRun greetTail (prevAfter ("Добрый день" : String).data none)
              (msg.data.drop ("Добрый день" : String).data.length) else []) ≠ [] := by
          intro h3
          exact h (by rw [h1, h2, h3]; rfl)
        exact ⟨"Добрый день", by simp, greet_branch_spec _ _ h3⟩
      · exact ⟨"Уважаем", by simp, greet_branch_spec _ _ h2⟩
    · exact ⟨"Здравствуйте", by simp, greet_branch_spec _ _ h1⟩
  · rintro ⟨g, hg, hex⟩
    intro hcon
    obtain ⟨hA, hBC⟩ := List.append_eq_nil.mp hcon
    obtain ⟨hB, hC⟩ := List.append_eq_nil.mp hBC
    simp only [List.mem_cons, List.not_mem_nil, or_false] at hg
    rcases hg with rfl | rfl | rfl
    · exact greet_branch_ne_nil _ _ hex hA
    · exact greet_branch_ne_nil _ _ hex hB
    · exact greet_branch_ne_nil _ _ hex hC

end FraudBot
